import Mathlib

/-!
Verification development for the books_store repository.

We give a shallow embedding of the core components described in the spec:
the one-time token store (`src/models/Token.model.js`, `src/services/token.service.js`),
the user record and authentication gate (`src/models/User.model.js`, the `protect`
middleware), the login flow (`auth.controller.js`), the pagination calculator
(`src/utils/pagination.js`), and the query builder (`src/utils/queryBuilder.js`)
together with the book-listing controller (`book.controller.js`).

Machine integers of the source (JS numbers used as millisecond timestamps,
counts, page numbers) are modelled as `Nat`/`Int`; the values involved are far
below 2^53 so JS integer arithmetic is exact and no overflow modelling is
needed.  Cryptographic primitives (SHA-256, bcrypt comparison) are modelled as
explicit function parameters, since the code only uses them as black boxes.
-/

/-- Token type enum from `Token.model.js` (`emailVerification` | `passwordReset`). -/
inductive TokenType where
  | emailVerification
  | passwordReset
deriving DecidableEq, Repr

/-- A persisted one-time token document (`Token.model.js` schema):
owning user id, the SHA-256 hash of the secret (field `token`), the type,
and the expiry timestamp in milliseconds.  `id` models the Mongo `_id`
(unique per document). -/
structure TokenRecord where
  id : Nat
  user : Nat
  token : String
  ty : TokenType
  expiresAt : Nat
deriving DecidableEq, Repr

/-- The match condition of `Token.verifyToken`'s `findOne`:
hashed token equal, same type, and `expiresAt > Date.now()`. -/
def tokenMatches (hashedToken : String) (ty : TokenType) (now : Nat)
    (r : TokenRecord) : Bool :=
  r.token == hashedToken && r.ty == ty && now < r.expiresAt

/-- `Token.createToken` (Token.model.js lines 48-79): deletes every token of the
same `(user, type)` pair (`deleteMany`), then inserts the new document with
expiry one hour (3600000 ms) from now.  The random secret generation and
SHA-256 hashing are abstracted into the `hashedToken` argument (the code stores
only the hash). -/
def createToken (store : List TokenRecord) (userId : Nat) (ty : TokenType)
    (newId : Nat) (hashedToken : String) (now : Nat) : List TokenRecord :=
  store.filter (fun r => !(r.user == userId && r.ty == ty)) ++
    [{ id := newId, user := userId, token := hashedToken, ty := ty,
       expiresAt := now + 3600000 }]

/-- `Token.verifyToken` (Token.model.js lines 87-112): hash the incoming plain
token, `findOne` a record with that hash, the requested type and a future
expiry.  `hash` is the SHA-256 modelled as a function parameter. -/
def verifyToken (hash : String → String) (store : List TokenRecord)
    (plainToken : String) (ty : TokenType) (now : Nat) : Option TokenRecord :=
  store.find? (tokenMatches (hash plainToken) ty now)

/-- A user document (`User.model.js` schema), restricted to the fields the
verified operations read or write.  `password` holds the bcrypt digest,
`passwordChangedAt` the millisecond timestamp (absent until a password
change). -/
structure UserRec where
  id : Nat
  password : String
  isActive : Bool
  isEmailVerified : Bool
  passwordChangedAt : Option Nat
deriving DecidableEq, Repr

/-- `token.service.js` `verifyAndGetUser` (lines 34-55): verify the token; on
failure throw `Error('Invalid or expired token')`; on success `populate` the
owning user (`none` if the user document no longer exists), delete the token
document by `_id` (one-time use) and return the user.  The result is the
post-call token store paired with the outcome. -/
def verifyAndGetUser (hash : String → String) (store : List TokenRecord)
    (users : List UserRec) (plainToken : String) (ty : TokenType) (now : Nat) :
    List TokenRecord × Except String (Option UserRec) :=
  match verifyToken hash store plainToken ty now with
  | none => (store, Except.error "Invalid or expired token")
  | some r =>
      (store.filter (fun x => x.id ≠ r.id),
       Except.ok (users.find? (fun u => u.id == r.user)))

/-- Count of stored tokens for a `(user, type)` pair. -/
def countTokens (store : List TokenRecord) (userId : Nat) (ty : TokenType) : Nat :=
  store.countP (fun r => r.user == userId && r.ty == ty)

/-- Count of *live* (unexpired) stored tokens for a `(user, type)` pair. -/
def countLiveTokens (store : List TokenRecord) (userId : Nat) (ty : TokenType)
    (now : Nat) : Nat :=
  store.countP (fun r => r.user == userId && r.ty == ty && now < r.expiresAt)

/-- `User.model.js` `changedPasswordAfter` (lines 95-101): if
`passwordChangedAt` is set, compare the JWT issued-at (seconds) against
`parseInt(passwordChangedAt.getTime() / 1000)` (milliseconds floored to
seconds); return `JWTTimestamp < changedTimestamp`. -/
def changedPasswordAfter (u : UserRec) (jwtIat : Nat) : Bool :=
  match u.passwordChangedAt with
  | some pca => jwtIat < pca / 1000
  | none => false

/-- Outcome of `jwt.verify` in the `protect` middleware: bad signature /
malformed (`JsonWebTokenError`), expired (`TokenExpiredError`), or a decoded
payload carrying the user id and issued-at seconds. -/
inductive JwtResult where
  | invalid
  | expired
  | ok (id : Nat) (iat : Nat)
deriving DecidableEq, Repr

/-- Result of the `protect` middleware: a 401 error with its message, or
access granted with the authenticated user attached to the request. -/
inductive AuthOutcome where
  | err (status : Nat) (msg : String)
  | granted (u : UserRec)
deriving DecidableEq, Repr

/-- The `protect` middleware (auth middleware, steps 1-7): require a bearer
token, verify the signature/expiry (`jwtOutcome` models the `jwt.verify`
result), look the user up, reject missing or deactivated users, and reject
tokens issued before the last password change via `changedPasswordAfter`. -/
def protect (tokenPresent : Bool) (jwtOutcome : JwtResult)
    (findUser : Nat → Option UserRec) : AuthOutcome :=
  if !tokenPresent then
    .err 401 "You are not logged in. Please log in to access this resource."
  else
    match jwtOutcome with
    | .invalid => .err 401 "Invalid token. Please log in again."
    | .expired => .err 401 "Your token has expired. Please log in again."
    | .ok id iat =>
        match findUser id with
        | none => .err 401 "The user belonging to this token no longer exists."
        | some u =>
            if !u.isActive then
              .err 401 "Your account has been deactivated. Please contact support."
            else if changedPasswordAfter u iat then
              .err 401 "User recently changed password. Please log in again."
            else
              .granted u

/-- Outcome of the `login` controller: a typed `ApiError` (status, message) or
success with the logged-in user. -/
inductive LoginOutcome where
  | err (status : Nat) (msg : String)
  | ok (u : UserRec)
deriving DecidableEq, Repr

/-- The `login` controller (auth.controller.js lines 156-203): look the user up
by email (`findByEmail` models the `User.findOne` result), fail 401 on unknown
email, fail 401 with a distinct message on a deactivated account, fail 401 on
a wrong password (`compare` models `bcrypt.compare`), otherwise succeed. -/
def login (compare : String → String → Bool) (findByEmail : Option UserRec)
    (password : String) : LoginOutcome :=
  match findByEmail with
  | none => .err 401 "Invalid email or password"
  | some u =>
      if !u.isActive then
        .err 401 "Your account has been deactivated. Please contact support."
      else if !(compare password u.password) then
        .err 401 "Invalid email or password"
      else
        .ok u

/-- C1: for every user and every access token accepted by the signature and
expiry checks (`jwt.verify` returned a payload), if the token's issued-at
predates the user's `passwordChangedAt` watermark (at the second granularity
the code compares at: `iat < ⌊passwordChangedAt / 1000⌋`), then `protect`
fails with the stale-token 401 error even though the token itself has not
expired. -/
theorem protect_stale_token (findUser : Nat → Option UserRec) (id iat pca : Nat)
    (u : UserRec) (hfind : findUser id = some u) (hactive : u.isActive = true)
    (hpca : u.passwordChangedAt = some pca) (hstale : iat < pca / 1000) :
    protect true (.ok id iat) findUser =
      .err 401 "User recently changed password. Please log in again." := by
  simp [protect, hfind, hactive, changedPasswordAfter, hpca, hstale]

/-- Witness for `protect_stale_token` at a concrete input: a token issued at
second 5 against a password changed at millisecond 7000. -/
theorem protect_stale_token_witness :
    5 < 7000 / 1000 ∧
      protect true (.ok 1 5)
        (fun _ => some ⟨1, "digest", true, true, some 7000⟩) =
        .err 401 "User recently changed password. Please log in again." :=
  ⟨by decide,
    protect_stale_token (fun _ => some ⟨1, "digest", true, true, some 7000⟩)
      1 5 7000 ⟨1, "digest", true, true, some 7000⟩ rfl rfl rfl (by decide)⟩

/-- C2: `consume` (= `verifyAndGetUser`) succeeds and returns the user
associated with the stored record exactly when a non-expired record matching
the hash of the secret and the type exists; on success it deletes that record,
and a second consume attempt with the same secret then fails with the
`Invalid or expired token` error.  The hypothesis states that matching
records have a unique `_id` (Mongo ids are unique; `deleteOne` removes the
found document). -/
theorem consume_one_time (hash : String → String) (store : List TokenRecord)
    (users : List UserRec) (tok : String) (ty : TokenType) (now : Nat)
    (huniq : ∀ r1 ∈ store, ∀ r2 ∈ store,
      tokenMatches (hash tok) ty now r1 = true →
      tokenMatches (hash tok) ty now r2 = true → r1.id = r2.id) :
    ((∃ r ∈ store, tokenMatches (hash tok) ty now r = true) ↔
      ∃ u, (verifyAndGetUser hash store users tok ty now).2 = Except.ok u)
    ∧ (∀ r, verifyToken hash store tok ty now = some r →
        r ∈ store ∧ tokenMatches (hash tok) ty now r = true ∧
        verifyAndGetUser hash store users tok ty now =
          (store.filter (fun x => x.id ≠ r.id),
           Except.ok (users.find? (fun u => u.id == r.user))) ∧
        (verifyAndGetUser hash (store.filter (fun x => x.id ≠ r.id))
            users tok ty now).2 = Except.error "Invalid or expired token")
    ∧ (verifyToken hash store tok ty now = none →
        verifyAndGetUser hash store users tok ty now =
          (store, Except.error "Invalid or expired token")) := by
  refine ⟨?_, ?_, ?_⟩
  · constructor
    · rintro ⟨r, hr, hm⟩
      have hsome : (verifyToken hash store tok ty now).isSome := by
        rw [verifyToken, List.find?_isSome]
        exact ⟨r, hr, hm⟩
      rcases Option.isSome_iff_exists.mp hsome with ⟨r', hr'⟩
      exact ⟨users.find? (fun u => u.id == r'.user), by
        simp [verifyAndGetUser, hr']⟩
    · rintro ⟨u, hu⟩
      rcases hfind : verifyToken hash store tok ty now with _ | r
      · simp [verifyAndGetUser, hfind] at hu
      · exact ⟨r, List.mem_of_find?_eq_some hfind, List.find?_some hfind⟩
  · intro r hr
    have hmem : r ∈ store := List.mem_of_find?_eq_some hr
    have hmatch : tokenMatches (hash tok) ty now r = true := List.find?_some hr
    refine ⟨hmem, hmatch, by simp [verifyAndGetUser, hr], ?_⟩
    have hnone : verifyToken hash (store.filter (fun x => !decide (x.id = r.id)))
        tok ty now = none := by
      rw [verifyToken, List.find?_eq_none]
      intro x hx
      have hx' := List.mem_filter.mp hx
      intro hxm
      have hid : x.id = r.id := huniq x hx'.1 r hmem hxm hmatch
      simp [hid] at hx'
    simp [verifyAndGetUser, hnone]
  · intro hnone
    simp [verifyAndGetUser, hnone]

/-- Witness for `consume_one_time`: a one-record store, the modelled hash
appends a marker character; consumption succeeds and the id-uniqueness
hypothesis is discharged by evaluation. -/
theorem consume_one_time_witness :
    ∃ u, (verifyAndGetUser (fun s => s ++ "#")
        [⟨1, 5, "sec#", .emailVerification, 100⟩]
        [⟨5, "pw", true, false, none⟩] "sec" .emailVerification 50).2 =
      Except.ok u :=
  (consume_one_time (fun s => s ++ "#")
      [⟨1, 5, "sec#", .emailVerification, 100⟩]
      [⟨5, "pw", true, false, none⟩] "sec" .emailVerification 50
      (by decide)).1.mp
    ⟨⟨1, 5, "sec#", .emailVerification, 100⟩, by decide, by decide⟩


/-- Helper: after the `deleteMany` step of `createToken`, any count of records
whose predicate entails membership in the deleted `(user, type)` pair is zero. -/
theorem countP_deleteMany_self (st : List TokenRecord) (uId : Nat)
    (t : TokenType) (q : TokenRecord → Bool)
    (himp : ∀ r, q r = true → (r.user == uId && r.ty == t) = true) :
    (st.filter (fun r => !(r.user == uId && r.ty == t))).countP q = 0 := by
  induction st with
  | nil => rfl
  | cons a l ih =>
      by_cases h : (a.user == uId && a.ty == t) = true
      · rw [List.filter_cons_of_neg (by simp [h]), ih]
      · have hq : q a = false := by
          cases hqa : q a
          · rfl
          · exact absurd (himp a hqa) h
        rw [List.filter_cons_of_pos (by simp [h]), List.countP_cons, ih, hq]
        rfl

/-- Helper: the `deleteMany` step of `createToken` does not change the count
of any other `(user, type)` pair. -/
theorem countP_deleteMany_other (st : List TokenRecord) (uId : Nat)
    (t : TokenType) (u' : Nat) (t' : TokenType)
    (hne : u' ≠ uId ∨ t' ≠ t) :
    (st.filter (fun r => !(r.user == uId && r.ty == t))).countP
        (fun r => r.user == u' && r.ty == t')
      = st.countP (fun r => r.user == u' && r.ty == t') := by
  induction st with
  | nil => rfl
  | cons a l ih =>
      by_cases h : (a.user == uId && a.ty == t) = true
      · have hu := (Bool.and_eq_true _ _).mp h
        have h2 : (a.user == u' && a.ty == t') = false := by
          rcases hne with hx | hx
          · have hau : a.user ≠ u' := fun he => hx (he ▸ eq_of_beq hu.1)
            simp [hau]
          · have hat : a.ty ≠ t' := fun he => hx (he ▸ eq_of_beq hu.2)
            simp [hat]
        rw [List.filter_cons_of_neg (by simp [h]), ih, List.countP_cons, h2]
        rfl
      · rw [List.filter_cons_of_pos (by simp [h]), List.countP_cons,
          List.countP_cons, ih]

/-- Helper: the `(user, type)` pair just issued by `createToken` has exactly
one stored record. -/
theorem createToken_count_self (st : List TokenRecord) (uId : Nat)
    (t : TokenType) (newId : Nat) (htok : String) (now : Nat) :
    countTokens (createToken st uId t newId htok now) uId t = 1 := by
  rw [createToken, countTokens, List.countP_append,
    countP_deleteMany_self st uId t _ (fun r hr => hr)]
  simp [List.countP_cons]

/-- Helper: the record just issued by `createToken` is the only live one of
its pair (its expiry is one hour in the future). -/
theorem createToken_countLive_self (st : List TokenRecord) (uId : Nat)
    (t : TokenType) (newId : Nat) (htok : String) (now : Nat) :
    countLiveTokens (createToken st uId t newId htok now) uId t now = 1 := by
  rw [createToken, countLiveTokens, List.countP_append,
    countP_deleteMany_self st uId t _ (fun r hr => by
      have h := (Bool.and_eq_true _ _).mp hr
      exact h.1)]
  simp [List.countP_cons]

/-- Helper: `createToken` leaves every other `(user, type)` pair's count
unchanged. -/
theorem createToken_count_other (st : List TokenRecord) (uId : Nat)
    (t : TokenType) (newId : Nat) (htok : String) (now : Nat)
    (u' : Nat) (t' : TokenType) (hne : u' ≠ uId ∨ t' ≠ t) :
    countTokens (createToken st uId t newId htok now) u' t' =
      countTokens st u' t' := by
  rw [createToken, countTokens, List.countP_append,
    countP_deleteMany_other st uId t u' t' hne]
  rcases hne with hx | hx
  · simp [List.countP_cons, countTokens, Ne.symm hx]
  · simp [List.countP_cons, countTokens, Ne.symm hx]

/-- C3: `createToken` deletes all tokens of the `(user, type)` pair before
inserting the fresh one, so: the pair ends with exactly one stored record,
which is live (expiry one hour ahead); every other pair's count is untouched;
the at-most-one-record-per-pair invariant is preserved by every issue
operation; and issuing two `passwordReset` tokens for the same user in
sequence leaves exactly one live record. -/
theorem createToken_at_most_one (store : List TokenRecord) (userId : Nat)
    (ty : TokenType) (newId : Nat) (htok : String) (now : Nat) :
    countTokens (createToken store userId ty newId htok now) userId ty = 1
    ∧ countLiveTokens (createToken store userId ty newId htok now) userId ty now = 1
    ∧ (∀ u' ty', (u' ≠ userId ∨ ty' ≠ ty) →
        countTokens (createToken store userId ty newId htok now) u' ty' =
          countTokens store u' ty')
    ∧ ((∀ u' ty', countTokens store u' ty' ≤ 1) →
        ∀ u' ty', countTokens (createToken store userId ty newId htok now) u' ty' ≤ 1)
    ∧ countLiveTokens
        (createToken (createToken store userId .passwordReset newId htok now)
          userId .passwordReset (newId + 1) htok now) userId .passwordReset now = 1 := by
  refine ⟨createToken_count_self store userId ty newId htok now,
    createToken_countLive_self store userId ty newId htok now,
    fun u' ty' hne => createToken_count_other store userId ty newId htok now u' ty' hne,
    ?_, createToken_countLive_self _ userId .passwordReset (newId + 1) htok now⟩
  intro hinv u' ty'
  by_cases hne : u' ≠ userId ∨ ty' ≠ ty
  · rw [createToken_count_other store userId ty newId htok now u' ty' hne]
    exact hinv u' ty'
  · push_neg at hne
    rw [hne.1, hne.2, createToken_count_self store userId ty newId htok now]

/-- Witness for `createToken_at_most_one`: issuing two `passwordReset` tokens
for user 7 starting from the empty store; the at-most-one invariant of the
starting store is discharged explicitly. -/
theorem createToken_at_most_one_witness :
    countTokens (createToken [] 7 .passwordReset 1 "h1" 0) 7 .passwordReset = 1
    ∧ countTokens
        (createToken (createToken [] 7 .passwordReset 1 "h1" 0)
          7 .passwordReset 2 "h2" 5) 7 .passwordReset ≤ 1 :=
  ⟨(createToken_at_most_one [] 7 .passwordReset 1 "h1" 0).1,
   (createToken_at_most_one (createToken [] 7 .passwordReset 1 "h1" 0)
      7 .passwordReset 2 "h2" 5).2.2.2.1
     (by
       intro u' ty'
       simp only [createToken, List.filter_nil, List.nil_append]
       rw [countTokens, List.countP_cons]
       simp only [List.countP_nil]
       split <;> simp)
     7 .passwordReset⟩

/-- C4 counterexample: the claim says `login` carries one uniform error
message in all three failure cases; in the code the unknown-email case yields
`Invalid email or password` while a deactivated account yields a distinct
deactivation message, so a caller can distinguish the inactive-account case. -/
theorem login_uniform_message_counterexample :
    login (fun _ _ => true) none "pw" = .err 401 "Invalid email or password"
    ∧ login (fun _ _ => true) (some ⟨1, "digest", false, false, none⟩) "pw" =
        .err 401 "Your account has been deactivated. Please contact support."
    ∧ "Your account has been deactivated. Please contact support." ≠
        "Invalid email or password" :=
  ⟨rfl, rfl, by decide⟩

/-- C4 amended: `login` fails with a 401 in all three failure cases; the
unknown-email and wrong-password cases share the uniform
`Invalid email or password` message (so those two are indistinguishable), but
a deactivated account yields a distinct deactivation message. -/
theorem login_messages (compare : String → String → Bool) (pw : String) :
    login compare none pw = .err 401 "Invalid email or password"
    ∧ (∀ u : UserRec, u.isActive = true → compare pw u.password = false →
        login compare (some u) pw = .err 401 "Invalid email or password")
    ∧ (∀ u : UserRec, u.isActive = false →
        login compare (some u) pw =
          .err 401 "Your account has been deactivated. Please contact support.") := by
  refine ⟨rfl, ?_, ?_⟩
  · intro u hact hcmp
    simp [login, hact, hcmp]
  · intro u hact
    simp [login, hact]

/-- Witness for `login_messages`: a wrong password against an active account
yields the uniform invalid-credentials message. -/
theorem login_messages_witness :
    login (fun _ _ => false) (some ⟨1, "digest", true, false, none⟩) "pw" =
      .err 401 "Invalid email or password" :=
  (login_messages (fun _ _ => false) "pw").2.1
    ⟨1, "digest", true, false, none⟩ rfl rfl

/-- Outcome of the `verifyEmail` controller: success, the propagated
`Invalid or expired token` error, the 400 `Email is already verified`
`ApiError`, or a crash (the token's populated user was `null`). -/
inductive VEOutcome where
  | ok
  | errInvalidOrExpired
  | errAlreadyVerified
  | crash
deriving DecidableEq, Repr

/-- Persisted state after a `verifyEmail` call, plus its outcome. -/
structure VEResult where
  tokens : List TokenRecord
  users : List UserRec
  outcome : VEOutcome
deriving DecidableEq, Repr

/-- Setting the verified flag on one user document (`user.isEmailVerified =
true; await user.save()`). -/
def setVerified (users : List UserRec) (uid : Nat) : List UserRec :=
  users.map (fun v => if v.id = uid then { v with isEmailVerified := true } else v)

/-- The `verifyEmail` controller (auth.controller.js lines 210-240): first
consume the one-time token via `verifyAndGetUser` (which deletes the token
record on success), then fail with `Email is already verified` if the user is
already verified, else set the flag.  Mail send and socket notification are
best-effort side channels with no effect on persisted state. -/
def verifyEmail (hash : String → String) (tokens : List TokenRecord)
    (users : List UserRec) (tok : String) (now : Nat) : VEResult :=
  match verifyAndGetUser hash tokens users tok .emailVerification now with
  | (tokens', Except.error _) => ⟨tokens', users, .errInvalidOrExpired⟩
  | (tokens', Except.ok none) => ⟨tokens', users, .crash⟩
  | (tokens', Except.ok (some u)) =>
      if u.isEmailVerified then ⟨tokens', users, .errAlreadyVerified⟩
      else ⟨tokens', setVerified users u.id, .ok⟩

/-- C8 counterexample: a `verifyEmail` call that fails with `AlreadyVerified`
has nonetheless deleted the one-time token record, so the persisted state is
NOT unchanged by the failed call. -/
theorem verifyEmail_partial_mutation_counterexample :
    (verifyEmail (fun s => s ++ "#") [⟨1, 5, "t#", .emailVerification, 100⟩]
        [⟨5, "pw", true, true, none⟩] "t" 50).outcome = .errAlreadyVerified
    ∧ (verifyEmail (fun s => s ++ "#") [⟨1, 5, "t#", .emailVerification, 100⟩]
        [⟨5, "pw", true, true, none⟩] "t" 50).tokens ≠
        [⟨1, 5, "t#", .emailVerification, 100⟩] := by
  decide

/-- C8 amended: when `verifyEmail` fails with `AlreadyVerified`, the user
store is unchanged but the consumed `emailVerification` token record has
already been deleted (the consume happens before the verified-flag check);
when it fails with `InvalidOrExpiredToken`, no persisted state changes at
all. -/
theorem verifyEmail_failure_state (hash : String → String)
    (tokens : List TokenRecord) (users : List UserRec) (tok : String) (now : Nat) :
    ((verifyEmail hash tokens users tok now).outcome = .errAlreadyVerified →
      (verifyEmail hash tokens users tok now).users = users
      ∧ ∃ r, verifyToken hash tokens tok .emailVerification now = some r
          ∧ (verifyEmail hash tokens users tok now).tokens =
              tokens.filter (fun x => x.id ≠ r.id))
    ∧ ((verifyEmail hash tokens users tok now).outcome = .errInvalidOrExpired →
      (verifyEmail hash tokens users tok now).tokens = tokens
      ∧ (verifyEmail hash tokens users tok now).users = users) := by
  rcases h : verifyToken hash tokens tok .emailVerification now with _ | r
  · constructor
    · intro hout
      simp [verifyEmail, verifyAndGetUser, h] at hout
    · intro _
      simp [verifyEmail, verifyAndGetUser, h]
  · rcases hfind : users.find? (fun u => u.id == r.user) with _ | u
    · constructor
      · intro hout
        simp [verifyEmail, verifyAndGetUser, h, hfind] at hout
      · intro hout
        simp [verifyEmail, verifyAndGetUser, h, hfind] at hout
    · cases hver : u.isEmailVerified
      · constructor
        · intro hout
          simp [verifyEmail, verifyAndGetUser, h, hfind, hver] at hout
        · intro hout
          simp [verifyEmail, verifyAndGetUser, h, hfind, hver] at hout
      · constructor
        · intro _
          refine ⟨by simp [verifyEmail, verifyAndGetUser, h, hfind, hver], r, rfl, ?_⟩
          simp [verifyEmail, verifyAndGetUser, h, hfind, hver]
        · intro hout
          simp [verifyEmail, verifyAndGetUser, h, hfind, hver] at hout

/-- Witness for `verifyEmail_failure_state`: the concrete already-verified
call of the counterexample. -/
theorem verifyEmail_failure_state_witness :
    (verifyEmail (fun s => s ++ "#") [⟨1, 5, "t#", .emailVerification, 100⟩]
        [⟨5, "pw", true, true, none⟩] "t" 50).users =
      [⟨5, "pw", true, true, none⟩]
    ∧ ∃ r, verifyToken (fun s => s ++ "#")
          [⟨1, 5, "t#", .emailVerification, 100⟩] "t" .emailVerification 50 =
          some r
        ∧ (verifyEmail (fun s => s ++ "#")
            [⟨1, 5, "t#", .emailVerification, 100⟩]
            [⟨5, "pw", true, true, none⟩] "t" 50).tokens =
            List.filter (fun x => x.id ≠ r.id)
              [⟨1, 5, "t#", .emailVerification, 100⟩] :=
  (verifyEmail_failure_state (fun s => s ++ "#")
      [⟨1, 5, "t#", .emailVerification, 100⟩]
      [⟨5, "pw", true, true, none⟩] "t" 50).1 (by decide)

/-- The pagination metadata object returned by `getPaginationMetadata`
(`src/utils/pagination.js`). -/
structure PaginationMeta where
  currentPage : Int
  totalPages : Int
  totalDocs : Int
  limit : Int
  hasNextPage : Bool
  hasPrevPage : Bool
  nextPage : Option Int
  prevPage : Option Int
deriving DecidableEq, Repr

/-- `getPaginationMetadata` (pagination.js lines 522-540): `totalPages =
Math.ceil(totalDocs / limit)`, `hasNextPage = page < totalPages`,
`hasPrevPage = page > 1`, `nextPage`/`prevPage` are the adjacent page or
`null`.  `Math.ceil(totalDocs / limit)` is embedded as
`(totalDocs + limit - 1) / limit`, which coincides with the JS value on the
contract's domain (`limit ≥ 1`, `totalDocs ≥ 0`); the spec forbids other
inputs (`caller must supply already-validated positive integers`). -/
def getPaginationMetadata (page limit totalDocs : Int) : PaginationMeta :=
  let totalPages := (totalDocs + limit - 1) / limit
  let hasNextPage := page < totalPages
  let hasPrevPage := page > 1
  { currentPage := page
    totalPages := totalPages
    totalDocs := totalDocs
    limit := limit
    hasNextPage := hasNextPage
    hasPrevPage := hasPrevPage
    nextPage := if hasNextPage then some (page + 1) else none
    prevPage := if hasPrevPage then some (page - 1) else none }

/-- Helper: on the contract domain the computed `totalPages` is the natural
ceiling `(totalDocs + limit - 1) / limit`. -/
theorem getPaginationMetadata_totalPages (page : Int) (limit totalDocs : Nat)
    (hl : 1 ≤ limit) :
    (getPaginationMetadata page limit totalDocs).totalPages =
      ((totalDocs + limit - 1) / limit : Nat) := by
  simp only [getPaginationMetadata]
  have h1 : (totalDocs : Int) + limit - 1 = ((totalDocs + limit - 1 : Nat) : Int) := by
    omega
  rw [h1, ← Int.ofNat_ediv]

/-- C5: on the domain `page ≥ 1`, `limit ≥ 1`, `totalCount ≥ 0` the pagination
calculator returns `currentPage`, `totalDocs` and `limit` verbatim;
`totalPages` is the least `k` with `totalCount ≤ k * limit` (i.e. the ceiling
of `totalCount / limit`, and `0` exactly when `totalCount = 0`);
`hasNextPage ↔ page < totalPages`; `hasPrevPage ↔ page > 1`; and
`nextPage`/`prevPage` are `null` exactly when the corresponding has-flag is
false, else `page ± 1`.  It is a pure function, so determinism is inherent. -/
theorem getPaginationMetadata_spec (page limit totalCount : Nat)
    (hp : 1 ≤ page) (hl : 1 ≤ limit) :
    ((getPaginationMetadata page limit totalCount).currentPage = page
      ∧ (getPaginationMetadata page limit totalCount).totalDocs = totalCount
      ∧ (getPaginationMetadata page limit totalCount).limit = limit)
    ∧ ((totalCount : Int) ≤ (getPaginationMetadata page limit totalCount).totalPages * limit
      ∧ (∀ k : Nat, totalCount ≤ k * limit →
          (getPaginationMetadata page limit totalCount).totalPages ≤ k)
      ∧ ((getPaginationMetadata page limit totalCount).totalPages = 0 ↔ totalCount = 0))
    ∧ ((getPaginationMetadata page limit totalCount).hasNextPage = true ↔
        (page : Int) < (getPaginationMetadata page limit totalCount).totalPages)
    ∧ ((getPaginationMetadata page limit totalCount).hasPrevPage = true ↔ 1 < page)
    ∧ ((getPaginationMetadata page limit totalCount).nextPage = none ↔
        (getPaginationMetadata page limit totalCount).hasNextPage = false)
    ∧ ((getPaginationMetadata page limit totalCount).hasNextPage = true →
        (getPaginationMetadata page limit totalCount).nextPage = some ((page : Int) + 1))
    ∧ ((getPaginationMetadata page limit totalCount).prevPage = none ↔
        (getPaginationMetadata page limit totalCount).hasPrevPage = false)
    ∧ ((getPaginationMetadata page limit totalCount).hasPrevPage = true →
        (getPaginationMetadata page limit totalCount).prevPage = some ((page : Int) - 1)) := by
  have hT := getPaginationMetadata_totalPages (page : Int) limit totalCount hl
  have hdm := Nat.div_add_mod (totalCount + limit - 1) limit
  have hmlt : (totalCount + limit - 1) % limit < limit := Nat.mod_lt _ (by omega)
  have hs : totalCount + limit - 1 + 1 = totalCount + limit := by omega
  have hl1 : limit - 1 + 1 = limit := by omega
  refine ⟨⟨by simp [getPaginationMetadata], by simp [getPaginationMetadata],
      by simp [getPaginationMetadata]⟩, ⟨?_, ?_, ?_⟩, ?_, ?_, ?_, ?_, ?_, ?_⟩
  · rw [hT]
    have hgoal : totalCount ≤ ((totalCount + limit - 1) / limit) * limit := by
      rw [Nat.mul_comm]
      linarith [hdm, hmlt, hs]
    exact_mod_cast hgoal
  · intro k hk
    rw [hT]
    have hk' : totalCount ≤ limit * k := by rw [Nat.mul_comm]; exact hk
    have hgoal : (totalCount + limit - 1) / limit ≤ k := by
      rw [Nat.div_le_iff_le_mul_add_pred (by omega)]
      linarith [hs, hl1, hk']
    exact_mod_cast hgoal
  · rw [hT]
    constructor
    · intro h0
      have h0' : (totalCount + limit - 1) / limit = 0 := by exact_mod_cast h0
      have := Nat.div_eq_zero_iff (by omega : 0 < limit) |>.mp h0'
      omega
    · intro h0
      subst h0
      have hz : (0 + limit - 1) / limit = 0 := Nat.div_eq_of_lt (by omega)
      exact_mod_cast hz
  · simp [getPaginationMetadata]
  · constructor
    · intro h
      have : decide ((page : Int) > 1) = true := by
        simpa [getPaginationMetadata] using h
      have := of_decide_eq_true this
      exact_mod_cast this
    · intro h
      simp only [getPaginationMetadata]
      exact decide_eq_true (by exact_mod_cast h)
  · simp [getPaginationMetadata]
  · simp only [getPaginationMetadata]
    intro h
    simp [of_decide_eq_true h]
  · simp [getPaginationMetadata]
  · simp only [getPaginationMetadata]
    intro h
    simp [of_decide_eq_true h]

/-- A regex word character (`\w` = `[A-Za-z0-9_]`), as used by the `\b`
boundaries in `queryBuilder.js`'s operator-rewrite regex. -/
def isWordChar (c : Char) : Bool :=
  c.isAlphanum || c == '_'

/-- The effect of the regex replacement on one maximal word run: the runs
`gte`, `gt`, `lte`, `lt` (exactly — `\b` admits no boundary inside a run) get
a `$` prefix, all others are left alone.  The alternation order of the regex
(`gte` before `gt`) is immaterial at whole-run granularity. -/
def opWord (w : List Char) : List Char :=
  if String.mk w == "gte" || String.mk w == "gt" ||
      String.mk w == "lte" || String.mk w == "lt" then
    '$' :: w
  else w

/-- Scanner for the operator rewrite: `run` accumulates the current word run
(reversed); a non-word character (or the end) flushes the run through
`opWord`. -/
def replaceOpsGo (run : List Char) : List Char → List Char
  | [] => opWord run.reverse
  | c :: cs =>
      if isWordChar c then replaceOpsGo (c :: run) cs
      else opWord run.reverse ++ c :: replaceOpsGo [] cs

/-- `queryStr.replace(/\b(gte|gt|lte|lt)\b/g, m => '$' + m)` at the character
level: scan the text, rewriting each maximal word-character run via `opWord`.
Because `\w` runs contain no `\b` boundary internally and all other characters
are boundaries, this is exactly the regex's behaviour. -/
def replaceOpsAux (cs : List Char) : List Char :=
  replaceOpsGo [] cs

/-- The operator rewrite applied to one string (a JSON key or string value).
This models the serialize-rewrite-parse round trip of `filter()` for strings
whose JSON serialisation needs no escape sequences (quotes and syntax
characters are non-word, so runs never cross JSON token boundaries). -/
def replaceOps (s : String) : String :=
  String.mk (replaceOpsAux s.data)

/-- A query-parameter value as Express's `qs` produces it: a plain string
(`?genre=Technology`) or a nested string map (`?price[gte]=20`). -/
inductive QVal where
  | str (s : String)
  | obj (m : List (String × String))
deriving DecidableEq, Repr

/-- Property access on the query-parameter map. -/
def qget (qs : List (String × QVal)) (k : String) : Option QVal :=
  (qs.find? (fun p => p.1 == k)).map (fun p => p.2)

/-- Flatten to a string value (absent or nested values give `none`; `parseInt`
of a non-string stringifies it and then fails to find digits). -/
def qstr (v : Option QVal) : Option String :=
  match v with
  | some (.str s) => some s
  | _ => none

/-- The reserved keys removed by `filter()` before building constraints. -/
def reservedKeys : List String :=
  ["page", "sort", "limit", "fields", "search"]

/-- The operator rewrite as it lands on one value: a scalar's text is
rewritten; a nested map has both its operator keys and its values rewritten
(all of them sit in the same serialized JSON text). -/
def rewriteQVal (v : QVal) : QVal :=
  match v with
  | .str s => .str (replaceOps s)
  | .obj m => .obj (m.map (fun p => (replaceOps p.1, replaceOps p.2)))

/-- `QueryBuilder.filter()` (queryBuilder.js lines 93-110): copy the params,
delete the reserved keys, `JSON.stringify`, rewrite `\b(gte|gt|lte|lt)\b` to
the `$`-prefixed operator over the whole text, and parse back: every
remaining key and string value goes through `replaceOps`. -/
def filterTransform (qs : List (String × QVal)) : List (String × QVal) :=
  (qs.filter (fun p => !(reservedKeys.contains p.1))).map
    (fun p => (replaceOps p.1, rewriteQVal p.2))

/-- Numeric value of a digit run (most significant first). -/
def digitsToNat (ds : List Char) : Nat :=
  ds.foldl (fun a c => a * 10 + (c.toNat - 48)) 0

/-- Parse an optional sign's operand: the leading digit run, or `none` (NaN)
if there is none. -/
def parseIntFrom (sign : Int) (t : List Char) : Option Int :=
  let ds := t.takeWhile Char.isDigit
  if ds.isEmpty then none else some (sign * (digitsToNat ds : Int))

/-- `parseInt(s, 10)`: skip leading whitespace, optional sign, then the
leading digit run; NaN (here `none`) when no digits follow.  (Radix 10 is
fixed by the call sites, so `0x` prefixes just parse as `0`.) -/
def jsParseInt (s : String) : Option Int :=
  match s.data.dropWhile (fun c =>
      c == ' ' || c == '\t' || c == '\n' || c == '\r') with
  | '-' :: t => parseIntFrom (-1) t
  | '+' :: t => parseIntFrom 1 t
  | t => parseIntFrom 1 t

/-- The `||` defaulting idiom `parseInt(x, 10) || d`: NaN and `0` are falsy,
any other number is kept. -/
def jsOr (v : Option Int) (d : Int) : Int :=
  match v with
  | none => d
  | some n => if n = 0 then d else n

/-- The state accumulated by the chainable `QueryBuilder` methods: the
conjunctive `find()` condition documents, the search constraints, the sort
keys, the field projection, and skip/limit. -/
structure MQuery where
  conds : List (List (String × QVal))
  searches : List (String × List String)
  sortKeys : List String
  fieldsSel : Option (List String)
  skipN : Int
  limitN : Option Int
deriving DecidableEq, Repr

/-- The query state of a fresh `Book.find()` before any transform. -/
def mqInit : MQuery :=
  { conds := [], searches := [], sortKeys := [], fieldsSel := none,
    skipN := 0, limitN := none }

/-- `filter()` as a state transform: appends its constraint document. -/
def filterM (qs : List (String × QVal)) (q : MQuery) : MQuery :=
  { q with conds := q.conds ++ [filterTransform qs] }

/-- `search(fields)`: when a non-empty string `search` parameter is present,
adds the case-insensitive disjunctive substring constraint over `fields`;
otherwise a no-op.  (Only string-valued search terms are modelled; the routes
under verification pass strings.) -/
def searchM (fields : List String) (qs : List (String × QVal)) (q : MQuery) : MQuery :=
  match qget qs "search" with
  | some (.str s) =>
      if s.data.isEmpty then q
      else { q with searches := q.searches ++ [(s, fields)] }
  | _ => q

/-- `sort()`: comma-separated sort keys, or the `-createdAt` default. -/
def sortM (qs : List (String × QVal)) (q : MQuery) : MQuery :=
  match qget qs "sort" with
  | some (.str s) =>
      if s.data.isEmpty then { q with sortKeys := ["-createdAt"] }
      else { q with sortKeys := s.splitOn "," }
  | _ => { q with sortKeys := ["-createdAt"] }

/-- `limitFields()`: comma-separated include-list, or the default projection
that only drops the internal `__v` marker. -/
def limitFieldsM (qs : List (String × QVal)) (q : MQuery) : MQuery :=
  match qget qs "fields" with
  | some (.str s) =>
      if s.data.isEmpty then { q with fieldsSel := none }
      else { q with fieldsSel := some (s.splitOn ",") }
  | _ => { q with fieldsSel := none }

/-- `paginate()` (queryBuilder.js lines 204-215): `page = parseInt || 1`,
`limit = parseInt || 10`, `skip = (page-1)*limit`, row cap
`Math.min(limit, 100)`. -/
def paginateM (qs : List (String × QVal)) (q : MQuery) : MQuery :=
  let page := jsOr ((qstr (qget qs "page")).bind jsParseInt) 1
  let limit := jsOr ((qstr (qget qs "limit")).bind jsParseInt) 10
  { q with skipN := (page - 1) * limit, limitN := some (min limit 100) }

/-- A stored attribute value in the data-store contract: a number (prices,
counts, timestamps — the schema casts query strings to these) or a string. -/
inductive BVal where
  | num (q : Rat)
  | str (s : String)
deriving DecidableEq, Repr

/-- A stored document, as an attribute map. -/
abbrev BRec := List (String × BVal)

/-- Attribute access on a stored document. -/
def rget (r : BRec) (k : String) : Option BVal :=
  (r.find? (fun p => p.1 == k)).map (fun p => p.2)

/-- Decimal parser modelling the schema's cast of a query-string value to a
number (`mongoose` casts `"20"` to `20`, `"19.99"` to `19.99`): optional
sign, integer digits, optional fraction digits. -/
def parseDecParts : List Char → Option (Nat × Nat)
  | cs =>
    let intDs := cs.takeWhile Char.isDigit
    let rest := cs.drop intDs.length
    match rest with
    | [] => if intDs.isEmpty then none else some (digitsToNat intDs, 1)
    | '.' :: fr =>
        let frDs := fr.takeWhile Char.isDigit
        if !(fr.drop frDs.length).isEmpty then none
        else if intDs.isEmpty && frDs.isEmpty then none
        else some (digitsToNat intDs * 10 ^ frDs.length + digitsToNat frDs,
          10 ^ frDs.length)
    | _ => none

def parseDec (s : String) : Option Rat :=
  match s.data with
  | '-' :: t => (parseDecParts t).map (fun p => mkRat (-(p.1 : Int)) p.2)
  | '+' :: t => (parseDecParts t).map (fun p => mkRat (p.1 : Int) p.2)
  | t => (parseDecParts t).map (fun p => mkRat (p.1 : Int) p.2)

/-- Equality matching of a stored value against a scalar query string (after
the schema cast). -/
def evalEq (fv : BVal) (s : String) : Bool :=
  match fv with
  | .num q => parseDec s == some q
  | .str t => t == s

/-- Range matching for the rewritten `$`-operators of a constraint document,
after the schema cast; an unrecognized operator key matches nothing. -/
def evalCmpOp (op : String) (fv : BVal) (s : String) : Bool :=
  match fv with
  | .num q =>
      match parseDec s with
      | some x =>
          if op == "$gte" then x ≤ q
          else if op == "$gt" then x < q
          else if op == "$lte" then q ≤ x
          else if op == "$lt" then q < x
          else false
      | none => false
  | .str t =>
      if op == "$gte" then s ≤ t
      else if op == "$gt" then s < t
      else if op == "$lte" then t ≤ s
      else if op == "$lt" then t < s
      else false

/-- Matching of one key/value pair of a (rewritten) constraint document
against a stored document: scalar value = equality, nested map = each
operator entry, conjunctively; a missing attribute matches nothing. -/
def evalField (r : BRec) (k : String) (v : QVal) : Bool :=
  match v with
  | .str s =>
      match rget r k with
      | some fv => evalEq fv s
      | none => false
  | .obj ops =>
      ops.all (fun p =>
        match rget r k with
        | some fv => evalCmpOp p.1 fv p.2
        | none => false)

/-- Matching a whole constraint document (conjunction over its entries). -/
def matchesDoc (r : BRec) (doc : List (String × QVal)) : Bool :=
  doc.all (fun p => evalField r p.1 p.2)

/-- Spec-side range comparisons, written from the spec's words (`gte`, `gt`,
`lte`, `lt` range constraints on the field's value). -/
def specGte (fv : BVal) (s : String) : Bool :=
  match fv with
  | .num q => match parseDec s with | some x => x ≤ q | none => false
  | .str t => s ≤ t

def specGtOnly (fv : BVal) (s : String) : Bool :=
  match fv with
  | .num q => match parseDec s with | some x => x < q | none => false
  | .str t => s < t

def specLte (fv : BVal) (s : String) : Bool :=
  match fv with
  | .num q => match parseDec s with | some x => q ≤ x | none => false
  | .str t => t ≤ s

def specLtOnly (fv : BVal) (s : String) : Bool :=
  match fv with
  | .num q => match parseDec s with | some x => q < x | none => false
  | .str t => t < s

/-- Spec-side semantics of one *raw* (unrewritten) filter parameter: a scalar
value is an equality constraint on the identically-named attribute; a nested
mapping's keys `gte`/`gt`/`lte`/`lt` are range constraints, combined
conjunctively. -/
def specConstraintHolds (r : BRec) (k : String) (v : QVal) : Bool :=
  match v with
  | .str s =>
      match rget r k with
      | some fv => evalEq fv s
      | none => false
  | .obj ops =>
      ops.all (fun p =>
        match rget r k with
        | some fv =>
            if p.1 == "gte" then specGte fv p.2
            else if p.1 == "gt" then specGtOnly fv p.2
            else if p.1 == "lte" then specLte fv p.2
            else if p.1 == "lt" then specLtOnly fv p.2
            else false
        | none => false)

/-- Spec-side semantics of the whole filter: every non-reserved parameter
contributes its constraint, conjunctively. -/
def specFilterHolds (r : BRec) (qs : List (String × QVal)) : Bool :=
  (qs.filter (fun p => !(reservedKeys.contains p.1))).all
    (fun p => specConstraintHolds r p.1 p.2)

/-- Well-formedness of filter parameters as the spec describes them: field
names and scalar values are untouched by the operator rewrite, and nested
keys are exactly the four operator words. -/
def untouchedQVal (v : QVal) : Bool :=
  match v with
  | .str s => replaceOps s == s
  | .obj m => m.all (fun e =>
      (e.1 == "gte" || e.1 == "gt" || e.1 == "lte" || e.1 == "lt") &&
        replaceOps e.2 == e.2)

def wfFilterParams (qs : List (String × QVal)) : Bool :=
  qs.all (fun p => replaceOps p.1 == p.1 && untouchedQVal p.2)

/-- Prefix test on character lists (for the substring search). -/
def startsWithL : List Char → List Char → Bool
  | _, [] => true
  | [], _ :: _ => false
  | h :: t, n :: m => h == n && startsWithL t m

/-- Substring test on character lists. -/
def containsSubL : List Char → List Char → Bool
  | [], needle => needle.isEmpty
  | c :: t, needle => startsWithL (c :: t) needle || containsSubL t needle

/-- The `$regex ... $options: 'i'` search constraint of `search()`: the term
must be a case-insensitive substring of at least one of the given text
fields (a number-valued or missing field does not match). -/
def lowerChars (s : String) : List Char :=
  s.data.map Char.toLower

def searchMatches (r : BRec) (term : String) (fields : List String) : Bool :=
  fields.any (fun f =>
    match rget r f with
    | some (.str t) => containsSubL (lowerChars t) (lowerChars term)
    | _ => false)

/-- A sort key: leading `-` means descending. -/
def sortKeyDesc (k : String) : Bool × String :=
  match k.data with
  | '-' :: t => (true, String.mk t)
  | _ => (false, k)

/-- Data-store value order used for sorting (numbers before strings, as the
store orders across types; the verified claims do not depend on the
cross-type choice). -/
def bvalLe (a b : BVal) : Bool :=
  match a, b with
  | .num x, .num y => x ≤ y
  | .str x, .str y => x ≤ y
  | .num _, .str _ => true
  | .str _, .num _ => false

/-- Missing attributes sort first (ascending). -/
def optBvalLe (a b : Option BVal) : Bool :=
  match a, b with
  | none, _ => true
  | some _, none => false
  | some x, some y => bvalLe x y

/-- Multi-key document comparison in left-to-right priority order. -/
def cmpDocs (keys : List String) (a b : BRec) : Bool :=
  match keys with
  | [] => true
  | k :: rest =>
      let d := sortKeyDesc k
      let va := rget a d.2
      let vb := rget b d.2
      if va = vb then cmpDocs rest a b
      else if d.1 then optBvalLe vb va else optBvalLe va vb

/-- Insertion step of the executable model sort. -/
def insertSorted (le : BRec → BRec → Bool) (x : BRec) : List BRec → List BRec
  | [] => [x]
  | y :: t => if le y x then y :: insertSorted le x t else x :: y :: t

/-- Executable sort of the data-store model (the verified claims do not
depend on the particular stable order chosen). -/
def sortDocs (le : BRec → BRec → Bool) : List BRec → List BRec
  | [] => []
  | x :: t => insertSorted le x (sortDocs le t)

/-- Field projection applied on return: an include-list, or the default that
only drops the internal `__v` marker. -/
def projectDoc (sel : Option (List String)) (r : BRec) : BRec :=
  match sel with
  | none => r.filter (fun p => p.1 != "__v")
  | some fs => r.filter (fun p => fs.contains p.1)

/-- Executing the composed query against the stored documents: all `find()`
conditions and search constraints conjunctively, then sort, skip, row cap,
and projection. -/
def execQuery (docs : List BRec) (q : MQuery) : List BRec :=
  let filtered := docs.filter (fun r =>
    q.conds.all (fun d => matchesDoc r d) &&
      q.searches.all (fun s => searchMatches r s.1 s.2))
  let sorted := sortDocs (cmpDocs q.sortKeys) filtered
  let skipped := sorted.drop q.skipN.toNat
  let capped :=
    match q.limitN with
    | none => skipped
    | some n => skipped.take n.toNat
  capped.map (projectDoc q.fieldsSel)

/-- The response payload of `getAllBooks`. -/
structure BooksPage where
  books : List BRec
  pagination : PaginationMeta
deriving DecidableEq, Repr

/-- The `getAllBooks` controller (book.controller.js lines 15-40): build and
execute the composed query (`filter → search → sort → limitFields →
paginate`), then compute pagination metadata from `Book.countDocuments()` —
the count of ALL books, with no filter applied — and the re-parsed
`page`/`limit` parameters. -/
def getAllBooks (store : List BRec) (qs : List (String × QVal)) : BooksPage :=
  let q := paginateM qs (limitFieldsM qs (sortM qs
    (searchM ["title", "author", "description"] qs (filterM qs mqInit))))
  let books := execQuery store q
  let page := jsOr ((qstr (qget qs "page")).bind jsParseInt) 1
  let limit := jsOr ((qstr (qget qs "limit")).bind jsParseInt) 10
  ⟨books, getPaginationMetadata page limit store.length⟩

/-- Witness for `getPaginationMetadata_spec` at the repository's own test
vector `(page, limit, totalDocs) = (2, 10, 25)`. -/
theorem getPaginationMetadata_spec_witness :
    (getPaginationMetadata ((2 : Nat) : Int) ((10 : Nat) : Int)
        ((25 : Nat) : Int)).hasPrevPage = true ↔ 1 < (2 : Nat) :=
  (getPaginationMetadata_spec 2 10 25 (by decide) (by decide)).2.2.2.1

/-- Helper: the rewritten `$`-operators have exactly the spec's range
semantics. -/
theorem evalCmpOp_spec (fv : BVal) (s : String) :
    evalCmpOp "$gte" fv s = specGte fv s
    ∧ evalCmpOp "$gt" fv s = specGtOnly fv s
    ∧ evalCmpOp "$lte" fv s = specLte fv s
    ∧ evalCmpOp "$lt" fv s = specLtOnly fv s := by
  refine ⟨?_, ?_, ?_, ?_⟩ <;>
    cases fv with
    | num q =>
        cases hp : parseDec s <;>
          simp only [evalCmpOp, specGte, specGtOnly, specLte, specLtOnly, hp] <;>
            rfl
    | str t => rfl

/-- Helper: the operator rewrite on a well-formed nested operator map turns
each raw operator entry into the matching `$`-constraint. -/
theorem evalOps_rewrite (fv : BVal) :
    ∀ m : List (String × String),
      (m.all (fun e =>
        (e.1 == "gte" || e.1 == "gt" || e.1 == "lte" || e.1 == "lt") &&
          replaceOps e.2 == e.2)) = true →
      (m.map (fun p => (replaceOps p.1, replaceOps p.2))).all
          (fun p => evalCmpOp p.1 fv p.2) =
        m.all (fun p =>
          if p.1 == "gte" then specGte fv p.2
          else if p.1 == "gt" then specGtOnly fv p.2
          else if p.1 == "lte" then specLte fv p.2
          else if p.1 == "lt" then specLtOnly fv p.2
          else false) := by
  intro m
  induction m with
  | nil => intro _; rfl
  | cons e es ih =>
      intro hm
      rw [List.all_cons, Bool.and_eq_true] at hm
      obtain ⟨hhead, htail⟩ := hm
      rw [Bool.and_eq_true] at hhead
      obtain ⟨hop, hveq⟩ := hhead
      have hval : replaceOps e.2 = e.2 := eq_of_beq hveq
      rw [List.map_cons, List.all_cons, List.all_cons, ih htail]
      congr 1
      rw [hval]
      by_cases h1 : (e.1 == "gte") = true
      · rw [eq_of_beq h1]
        simp [(by decide : replaceOps "gte" = "$gte"), (evalCmpOp_spec fv e.2).1]
      · by_cases h2 : (e.1 == "gt") = true
        · rw [eq_of_beq h2]
          simp [(by decide : replaceOps "gt" = "$gt"), (evalCmpOp_spec fv e.2).2.1]
        · by_cases h3 : (e.1 == "lte") = true
          · rw [eq_of_beq h3]
            simp [(by decide : replaceOps "lte" = "$lte"),
              (evalCmpOp_spec fv e.2).2.2.1]
          · by_cases h4 : (e.1 == "lt") = true
            · rw [eq_of_beq h4]
              simp [(by decide : replaceOps "lt" = "$lt"),
                (evalCmpOp_spec fv e.2).2.2.2]
            · rw [Bool.not_eq_true] at h1 h2 h3 h4
              rw [h1, h2, h3, h4] at hop
              simp at hop

/-- Helper: on well-formed parameters, one rewritten constraint evaluates
exactly as the spec's raw constraint. -/
theorem evalField_rewrite (r : BRec) (k : String) (v : QVal)
    (hk : replaceOps k = k) (hv : untouchedQVal v = true) :
    evalField r (replaceOps k) (rewriteQVal v) = specConstraintHolds r k v := by
  rw [hk]
  cases v with
  | str s =>
      have hs : replaceOps s = s := by
        simpa [untouchedQVal] using hv
      simp [rewriteQVal, hs, evalField, specConstraintHolds]
  | obj m =>
      simp only [rewriteQVal, evalField, specConstraintHolds]
      cases hr : rget r k with
      | none =>
          cases m with
          | nil => rfl
          | cons e es => simp [hr]
      | some fv =>
          simp only [hr]
          exact evalOps_rewrite fv m (by simpa [untouchedQVal] using hv)

/-- Helper: on well-formed parameters the whole code-side filter pipeline
(reserved-key removal, JSON round-trip operator rewrite, store evaluation)
agrees with the spec-side constraint semantics. -/
theorem filterTransform_refines (r : BRec) :
    ∀ qs : List (String × QVal), wfFilterParams qs = true →
      matchesDoc r (filterTransform qs) = specFilterHolds r qs := by
  intro qs
  induction qs with
  | nil => intro _; rfl
  | cons p ps ih =>
      intro hwf
      simp only [wfFilterParams, List.all_cons, Bool.and_eq_true, beq_iff_eq] at hwf
      have hwf' : wfFilterParams ps = true := by
        simp only [wfFilterParams]
        exact hwf.2
      by_cases hres : reservedKeys.contains p.1 = true
      · have hmem : p.1 ∈ reservedKeys := by simpa using hres
        have e1 : matchesDoc r (filterTransform (p :: ps)) =
            matchesDoc r (filterTransform ps) := by
          simp only [matchesDoc, filterTransform]
          rw [List.filter_cons_of_neg (by simp [hmem])]
        have e2 : specFilterHolds r (p :: ps) = specFilterHolds r ps := by
          simp only [specFilterHolds]
          rw [List.filter_cons_of_neg (by simp [hmem])]
        rw [e1, e2]
        exact ih hwf'
      · have hnm : p.1 ∉ reservedKeys := by simpa using hres
        have e1 : matchesDoc r (filterTransform (p :: ps)) =
            (evalField r (replaceOps p.1) (rewriteQVal p.2) &&
              matchesDoc r (filterTransform ps)) := by
          simp only [matchesDoc, filterTransform]
          rw [List.filter_cons_of_pos (by simp [hnm]), List.map_cons, List.all_cons]
        have e2 : specFilterHolds r (p :: ps) =
            (specConstraintHolds r p.1 p.2 && specFilterHolds r ps) := by
          simp only [specFilterHolds]
          rw [List.filter_cons_of_pos (by simp [hnm]), List.all_cons]
        rw [e1, e2, evalField_rewrite r p.1 p.2 hwf.1.1 hwf.1.2, ih hwf']

/-- C7: for well-formed filter parameters (field names and scalar values
untouched by the operator rewrite, nested keys among `gte`/`gt`/`lte`/`lt`),
the code's filter pipeline turns each non-reserved key into the spec's
equality or range constraint on the identically-named attribute, combined
conjunctively; and on the spec's round-trip example
`price[gte]=20 & genre=Technology` it excludes a record with price 19.99 and
includes one with price 20.00 and matching genre. -/
theorem filter_constraints_spec (r : BRec) (qs : List (String × QVal))
    (hwf : wfFilterParams qs = true) :
    matchesDoc r (filterTransform qs) = specFilterHolds r qs
    ∧ matchesDoc
        [("price", BVal.num (mkRat 1999 100)), ("genre", BVal.str "Technology")]
        (filterTransform
          [("price", QVal.obj [("gte", "20")]), ("genre", QVal.str "Technology")]) = false
    ∧ matchesDoc
        [("price", BVal.num (mkRat 20 1)), ("genre", BVal.str "Technology")]
        (filterTransform
          [("price", QVal.obj [("gte", "20")]), ("genre", QVal.str "Technology")]) = true :=
  ⟨filterTransform_refines r qs hwf, by decide, by decide⟩

/-- Witness for `filter_constraints_spec`: the example parameters are
well-formed, and the refinement instantiates on them. -/
theorem filter_constraints_spec_witness :
    wfFilterParams
        [("price", QVal.obj [("gte", "20")]), ("genre", QVal.str "Technology")] = true
    ∧ matchesDoc [("price", BVal.num (mkRat 1999 100))]
        (filterTransform
          [("price", QVal.obj [("gte", "20")]), ("genre", QVal.str "Technology")]) =
      specFilterHolds [("price", BVal.num (mkRat 1999 100))]
        [("price", QVal.obj [("gte", "20")]), ("genre", QVal.str "Technology")] :=
  ⟨by decide,
    (filter_constraints_spec [("price", BVal.num (mkRat 1999 100))]
      [("price", QVal.obj [("gte", "20")]), ("genre", QVal.str "Technology")]
      (by decide)).1⟩

/-- C10: the operator rewrite runs over the JSON serialization of the whole
parameter map, so any field name or scalar value that is exactly one of the
four operator words (word boundaries at the surrounding JSON quotes) is also
rewritten: a scalar value `"gt"` becomes an equality constraint against
`"$gt"` (a record whose attribute is literally `"gt"` no longer matches, one
with `"$gt"` does), a field *name* `gt` is renamed to `$gt`, while an
embedded occurrence without word boundaries (`price_gt`) is untouched. -/
theorem filterTransform_rewrites_whole_json :
    filterTransform [("flag", QVal.str "gt")] = [("flag", QVal.str "$gt")]
    ∧ matchesDoc [("flag", BVal.str "gt")]
        (filterTransform [("flag", QVal.str "gt")]) = false
    ∧ matchesDoc [("flag", BVal.str "$gt")]
        (filterTransform [("flag", QVal.str "gt")]) = true
    ∧ filterTransform [("gt", QVal.str "5")] = [("$gt", QVal.str "5")]
    ∧ filterTransform [("price_gt", QVal.str "x")] = [("price_gt", QVal.str "x")]
    ∧ replaceOps "gte" = "$gte" ∧ replaceOps "gt" = "$gt"
    ∧ replaceOps "lte" = "$lte" ∧ replaceOps "lt" = "$lt" := by
  refine ⟨by decide, by decide, by decide, by decide, by decide,
    by decide, by decide, by decide, by decide⟩

/-- C6: `paginate()` computes the page (default 1) and limit (default 10) via
`parseInt ... || default`, sets the skip offset to `(page-1)*limit` (with the
*unclamped* limit) and the row cap to `min(limit, 100)`; a non-numeric or
absent `page`/`limit` falls back to its default (the transform is total, so
no input produces an error), and `limit=9999` is silently clamped to a row
cap of 100. -/
theorem paginate_spec (qs : List (String × QVal)) (q0 : MQuery) :
    (paginateM qs q0).skipN =
        (jsOr ((qstr (qget qs "page")).bind jsParseInt) 1 - 1) *
          jsOr ((qstr (qget qs "limit")).bind jsParseInt) 10
    ∧ (paginateM qs q0).limitN =
        some (min (jsOr ((qstr (qget qs "limit")).bind jsParseInt) 10) 100)
    ∧ (qget qs "page" = none →
        jsOr ((qstr (qget qs "page")).bind jsParseInt) 1 = 1)
    ∧ (∀ s, qget qs "page" = some (QVal.str s) → jsParseInt s = none →
        jsOr ((qstr (qget qs "page")).bind jsParseInt) 1 = 1)
    ∧ (∀ s, qget qs "limit" = some (QVal.str s) → jsParseInt s = none →
        jsOr ((qstr (qget qs "limit")).bind jsParseInt) 10 = 10)
    ∧ (paginateM [("limit", QVal.str "9999")] mqInit).limitN = some 100
    ∧ (paginateM [] mqInit).skipN = 0
    ∧ (paginateM [] mqInit).limitN = some 10 := by
  refine ⟨rfl, rfl, ?_, ?_, ?_, by decide, by decide, by decide⟩
  · intro h
    rw [h]
    rfl
  · intro s hs hparse
    rw [hs]
    simp [qstr, hparse, jsOr]
  · intro s hs hparse
    rw [hs]
    simp [qstr, hparse, jsOr]

/-- Witness for `paginate_spec`: a non-numeric `page` value falls back to the
default page 1. -/
theorem paginate_spec_witness :
    jsOr ((qstr (qget [("page", QVal.str "abc")] "page")).bind jsParseInt) 1 = 1 :=
  (paginate_spec [("page", QVal.str "abc")] mqInit).2.2.2.1 "abc"
    (by decide) (by decide)

/-- C9: the total count fed into `getAllBooks`' pagination metadata is
`Book.countDocuments()` with no argument — the size of the whole catalog —
and the metadata depends only on the `page`/`limit` parameters and that full
count; so with a `search` parameter that excludes one of two stored books,
the call returns a single book yet reports `totalDocs = 2`. -/
theorem getAllBooks_counts_whole_catalog (store : List BRec)
    (qs : List (String × QVal)) :
    (getAllBooks store qs).pagination.totalDocs = (store.length : Int)
    ∧ (getAllBooks store qs).pagination =
        getPaginationMetadata (jsOr ((qstr (qget qs "page")).bind jsParseInt) 1)
          (jsOr ((qstr (qget qs "limit")).bind jsParseInt) 10) (store.length : Int)
    ∧ (getAllBooks
        [[("title", BVal.str "Alpha Book"), ("createdAt", BVal.num (mkRat 1 1))],
         [("title", BVal.str "Beta"), ("createdAt", BVal.num (mkRat 2 1))]]
        [("search", QVal.str "alpha")]).books.length = 1
    ∧ (getAllBooks
        [[("title", BVal.str "Alpha Book"), ("createdAt", BVal.num (mkRat 1 1))],
         [("title", BVal.str "Beta"), ("createdAt", BVal.num (mkRat 2 1))]]
        [("search", QVal.str "alpha")]).pagination.totalDocs = 2 := by
  refine ⟨?_, rfl, by decide, by decide⟩
  simp [getAllBooks, getPaginationMetadata]
